import Mathlib

/-!
# Entwine `Builder`: a shallow embedding of `entwine/tree/builder.cpp`

The `Builder` orchestrates a point-cloud indexing build: it validates its
configuration, hands every input file to a worker task, routes every decoded
point either to the registry or to the tossed counter, and persists its own
metadata (`meta`, `entwine`, `ids`).

The collaborators that the translation unit only calls (arbiter and sources,
the file system, the stage factory and reader, `BBox`, `Schema`, `Manifest`,
`Registry`, `Branch::calcOffset`) are gathered in the record `Env`; every
result below holds for every choice of them.  One worker is modelled at a
time: a task runs from its first statement to its last without interleaving.
-/

namespace Entwine

/-! ## Machine integers and constants -/

/-- Number of values of the 64-bit `std::size_t`. -/
def sizeMod : Nat := 2 ^ 64

/-- The constant `chunkBytes(65536)` of the anonymous namespace. -/
def chunkBytes : Nat := 65536

/-! ## JSON values (jsoncpp `Json::Value`) -/

/-- A `Json::Value`.  The members of an object are kept sorted by key without
duplicates, as in the `std::map` that jsoncpp uses. -/
inductive Json where
  | null : Json
  | bool (b : Bool) : Json
  | int (i : Int) : Json
  | uint (n : Nat) : Json
  | real (q : Rat) : Json
  | str (s : String) : Json
  | arr (items : List Json) : Json
  | obj (members : List (String × Json)) : Json

/-- Lexicographic order on character codes, a shorter string before its
extensions: the order of `memcmp` followed by the comparison of lengths. -/
def charsLt : List Char → List Char → Bool
  | [], [] => false
  | [], _ :: _ => true
  | _ :: _, [] => false
  | a :: as, b :: bs =>
    if a.toNat < b.toNat then true
    else if b.toNat < a.toNat then false
    else charsLt as bs

/-- The order of member names in an object (`CZString::operator<`). -/
def keyLt (a b : String) : Bool :=
  charsLt a.data b.data

/-- Insertion of `key ↦ value` into the sorted member list of an object,
replacing the value of a key that is already present. -/
def insertMember : List (String × Json) → String → Json → List (String × Json)
  | [], k, v => [(k, v)]
  | (k', v') :: rest, k, v =>
    if keyLt k k' then (k, v) :: (k', v') :: rest
    else if k = k' then (k, v) :: rest
    else (k', v') :: insertMember rest k v

/-- The assignment `j[key] = value`: a null value becomes an object first. -/
def Json.set (j : Json) (key : String) (value : Json) : Json :=
  match j with
  | Json.null => Json.obj [(key, value)]
  | Json.obj ms => Json.obj (insertMember ms key value)
  | other => other

/-- The read access `j[key]` on a const value: null when the key is absent. -/
def Json.get (j : Json) (key : String) : Json :=
  match j with
  | Json.obj ms => (ms.lookup key).getD Json.null
  | _ => Json.null

/-- The call `j.append(value)`: a null value becomes an array first. -/
def Json.append (j : Json) (value : Json) : Json :=
  match j with
  | Json.null => Json.arr [value]
  | Json.arr items => Json.arr (items ++ [value])
  | other => other

/-- The member names of a value, in the order jsoncpp stores and prints them. -/
def Json.keys (j : Json) : List String :=
  match j with
  | Json.obj ms => ms.map Prod.fst
  | _ => []

/-- The test `j.isArray()`. -/
def Json.isArray (j : Json) : Bool :=
  match j with
  | Json.arr _ => true
  | _ => false

/-- The test `j.isMember(key)`. -/
def Json.isMember (j : Json) (key : String) : Bool :=
  match j with
  | Json.obj ms => (ms.lookup key).isSome
  | _ => false

/-- The conversion `j.asUInt64()`; `none` where jsoncpp fails the conversion. -/
def Json.asUInt64 (j : Json) : Option Nat :=
  match j with
  | Json.null => some 0
  | Json.bool b => some (if b then 1 else 0)
  | Json.int i => if 0 ≤ i then some i.toNat else none
  | Json.uint n => some n
  | Json.real q => if 0 ≤ q ∧ q ≤ 18446744073709551615 then some q.floor.toNat else none
  | _ => none

/-! ## Data model -/

/-- A `Source` as far as the builder looks at it. -/
structure Source where
  isRemote : Bool
  path : String
deriving DecidableEq, Repr

/-- The class `Reprojection`: input and output spatial reference. -/
structure Reprojection where
  inSrs : String
  outSrs : String
deriving DecidableEq, Repr

/-- The class `DimInfo` of `types/dim-info.hpp`. -/
structure DimInfo where
  name : String
  baseTypeName : String
  size : Nat
deriving DecidableEq, Repr

/-- The spatial key `Point`; the coordinates are `double` in the source and are
only read, compared for containment and copied here. -/
structure Point where
  x : Int
  y : Int
deriving DecidableEq, Repr

/-- One record of a point view: the fields `X`, `Y` and `Origin` and the
remaining bytes of the record. -/
structure Record where
  x : Int
  y : Int
  origin : Nat
  rest : List Nat
deriving DecidableEq, Repr

/-- The descent cursor `Roller`: current bounding box and node index. -/
structure Roller (B : Type) where
  bbox : B
  index : Nat
deriving DecidableEq

/-- Modelled from the spec: the constructor `Roller(bbox)` of `roller.hpp`,
which is not part of the sources at hand ("Initial state: root BBox, index 0"). -/
def Roller.root {B : Type} (bbox : B) : Roller B :=
  { bbox := bbox, index := 0 }

/-- The value `PointInfo(new Point(point), pointView.getPoint(i), pointSize)`. -/
structure PointInfo where
  point : Point
  data : Record
  size : Nat
deriving DecidableEq, Repr

/-- What a source holds under a key: the styled string of a JSON value, or
raw bytes. -/
inductive Blob where
  | text (j : Json) : Blob
  | raw (bytes : List Nat) : Blob

/-- The closure handed to `m_pool->add`: it captures `driver`, `origin`, `path`. -/
structure Task where
  driver : String
  origin : Nat
  path : String
deriving DecidableEq, Repr

/-- What a reader does to the task while `reader->execute(pointTable)` runs:
it stores a decoded record in the point table, or it calls the callback set
by `setReadCb` with a point index.  No order between the two is assumed. -/
inductive ReaderEvent where
  | point (r : Record) : ReaderEvent
  | callback (index : Nat) : ReaderEvent
deriving DecidableEq, Repr

/-- The records that a run of the reader stores in the point table, in
order. -/
def storedRecords (events : List ReaderEvent) : List Record :=
  events.filterMap (fun ev =>
    match ev with
    | ReaderEvent.point r => some r
    | ReaderEvent.callback _ => none)

/-- The members of `Builder` that carry state.  The pool, arbiter and stage
factory are capabilities and live in `Env`. -/
structure Builder (B S M R : Type) where
  reprojection : Option Reprojection
  bbox : B
  schema : S
  originId : Nat
  dimensions : Nat
  chunkPoints : Nat
  numPoints : Nat
  numTossed : Nat
  manifest : M
  buildSource : Source
  tmpSource : Source
  registry : R

/-- The collaborators of the builder: `B` is `BBox`, `S` is `Schema`, `M` is
`Manifest`, `R` is the registry with the chunks it owns, `W` is the state of
the file system and of the blob stores the builder itself reads and writes. -/
structure Env (B S M R W : Type) where
  getSource : String → Source
  resolve : Source → String → String
  getRoot : W → Source → List Nat
  getAsString : W → Source → String → Option Blob
  put : W → Source → String → Blob → W
  mkdirp : W → String → W × Bool
  removeFile : W → String → W × Bool
  inferReaderDriver : String → String
  execute : W → Option Reprojection → String → String → List ReaderEvent
  reproject : Reprojection → Record → Record
  contains : B → Point → Bool
  bboxToJson : B → Json
  bboxFromJson : Json → B
  schemaOf : List DimInfo → S
  pointSize : S → Nat
  findDim : S → String → Nat
  schemaToJson : S → Json
  schemaFromJson : Json → S
  manifestEmpty : M
  addOmission : M → String → M
  addOrigin : M → String → M × Nat
  invalidOrigin : Nat
  manifestToJson : M → Json
  manifestFromJson : Json → M
  registryNew : Source → S → Nat → Nat → Nat → Nat → Nat → R
  registryLoad : Source → S → Nat → Nat → Json → R
  addPoint : R → PointInfo → Roller B → R × Bool
  releaseClipper : R → R
  registrySave : R → Json → R × Json
  registryFinalize : R → Source → Nat → Nat → R × List Nat
  calcOffset : Nat → Nat → Nat

variable {B S M R W : Type}

/-! ## `Builder::insert(pdal::PointView&, Origin, Clipper*)` -/

/-- The body of the loop of `Builder::insert(view, origin, clipper)` for the
record at one index: the new builder and the record as the view holds it
afterwards. -/
def Builder.insertPoint (e : Env B S M R W) (origin : Nat) (b : Builder B S M R)
    (r : Record) : Builder B S M R × Record :=
  let point : Point := { x := r.x, y := r.y }
  if e.contains b.bbox point then
    let roller := Roller.root b.bbox
    let r1 := { r with origin := origin }
    let pointInfo : PointInfo := { point := point, data := r1, size := e.pointSize b.schema }
    match e.addPoint b.registry pointInfo roller with
    | (reg, true) => ({ b with registry := reg, numPoints := (b.numPoints + 1) % sizeMod }, r1)
    | (reg, false) => ({ b with registry := reg, numTossed := (b.numTossed + 1) % sizeMod }, r1)
  else
    ({ b with numTossed := (b.numTossed + 1) % sizeMod }, r)

/-- The method `Builder::insert(view, origin, clipper)`: the loop over the
indices `0 .. view.size() - 1`. -/
def Builder.insertView (e : Env B S M R W) (origin : Nat) :
    Builder B S M R → List Record → Builder B S M R × List Record
  | b, [] => (b, [])
  | b, r :: rs =>
    let step := Builder.insertPoint e origin b r
    let tail := Builder.insertView e origin step.1 rs
    (tail.1, step.2 :: tail.2)

/-! ## The per-file task of `Builder::insert(const std::string)` -/

/-- The helper `createReader` as far as the task observes it: a reader for
`driver` reading `path`, or no reader when the driver name is empty. -/
def createReader (driver path : String) : Option (String × String) :=
  if driver.length ≠ 0 then some (driver, path) else none

/-- The scratch `SimplePointTable` of a task together with the captured
counter `begin`. -/
structure Scratch where
  table : List Record
  begin : Nat
deriving DecidableEq, Repr

/-- Modelled from the spec: `SimplePointTable::data().size()`, whose class is
not part of the sources at hand; the table holds one record of the schema's
point size per point. -/
def Scratch.dataSize (pointSize : Nat) (s : Scratch) : Nat :=
  s.table.length * pointSize

/-- The view `LinkingPointView link(pointTable)` after
`if (filter) pdal::FilterWrapper::filter(*filter, link)`: the reprojection
rewrites every record in place. -/
def linkView (e : Env B S M R W) (reprojection : Option Reprojection)
    (table : List Record) : List Record :=
  match reprojection with
  | some reproj => table.map (e.reproject reproj)
  | none => table

/-- The callback given to `reader->setReadCb`, called with `index`. -/
def Builder.readCb (e : Env B S M R W) (origin : Nat)
    (st : Builder B S M R × Scratch) (index : Nat) : Builder B S M R × Scratch :=
  let b := st.1
  let scratch := st.2
  let indexSpan := (index % sizeMod + sizeMod - scratch.begin % sizeMod) % sizeMod
  if scratch.table.length = indexSpan ∧
      scratch.dataSize (e.pointSize b.schema) > chunkBytes then
    let link := linkView e b.reprojection scratch.table
    let b1 := (Builder.insertView e origin b link).1
    (b1, { table := [], begin := (scratch.begin + indexSpan) % sizeMod })
  else
    (b, scratch)

/-- One step of `reader->execute(pointTable)`: a record goes into the point
table, or the callback runs. -/
def Builder.deliver (e : Env B S M R W) (origin : Nat)
    (st : Builder B S M R × Scratch) (ev : ReaderEvent) : Builder B S M R × Scratch :=
  match ev with
  | ReaderEvent.point r => (st.1, { st.2 with table := st.2.table ++ [r] })
  | ReaderEvent.callback index => Builder.readCb e origin st index

/-- The block `if (reader) ...` of the task: `events` is what
`reader->execute(pointTable)` does; the leftover points are inserted at the
end and the clipper is destroyed. -/
def Builder.ingest (e : Env B S M R W) (origin : Nat) (b : Builder B S M R)
    (events : List ReaderEvent) : Builder B S M R :=
  let st := events.foldl (Builder.deliver e origin) (b, { table := [], begin := 0 })
  let link := linkView e st.1.reprojection st.2.table
  let b1 := (Builder.insertView e origin st.1 link).1
  { b1 with registry := e.releaseClipper b1.registry }

/-- The search `s.find_last_of(set)`. -/
def findLastOf (set : List Char) : List Char → Option Nat
  | [] => none
  | c :: cs =>
    match findLastOf set cs with
    | some pos => some (pos + 1)
    | none => if set.contains c then some 0 else none

/-- The method `Builder::name`. -/
def Builder.name (b : Builder B S M R) : String :=
  match findLastOf ['/', '\\'] b.buildSource.path.data with
  | some pos => String.mk (b.buildSource.path.data.drop (pos + 1))
  | none => b.buildSource.path

/-- How a call ends: it returns, it throws, or it runs a loop whose exit
condition never becomes true. -/
inductive Outcome where
  | returned : Outcome
  | threw (what : String) : Outcome
  | hangs : Outcome
deriving DecidableEq, Repr

/-- The staging part of the task: the local path given to the reader and
the file-system state after a remote source has been copied under the tmp
source. -/
def Builder.stage (e : Env B S M R W) (w : W) (b : Builder B S M R) (t : Task) :
    String × W :=
  let source := e.getSource t.path
  if source.isRemote then
    let subpath := b.name ++ "-" ++ toString t.origin
    (e.resolve b.tmpSource subpath,
      e.put w b.tmpSource subpath (Blob.raw (e.getRoot w source)))
  else
    (source.path, w)

/-- What the reader of the task does while it executes; nothing when
`createReader` gives no reader. -/
def Builder.delivered (e : Env B S M R W) (w : W) (b : Builder B S M R) (t : Task) :
    List ReaderEvent :=
  let staged := Builder.stage e w b t
  match createReader t.driver staged.1 with
  | some reader => e.execute staged.2 b.reprojection reader.1 reader.2
  | none => []

/-- The closure that `Builder::insert(path)` adds to the pool, run from start
to end by one worker. -/
def Builder.runTask (e : Env B S M R W) (w : W) (b : Builder B S M R) (t : Task) :
    Builder B S M R × W × Outcome :=
  let isRemote := (e.getSource t.path).isRemote
  let staged := Builder.stage e w b t
  let localPath := staged.1
  let b1 :=
    match createReader t.driver localPath with
    | some reader =>
      Builder.ingest e t.origin b (e.execute staged.2 b.reprojection reader.1 reader.2)
    | none => b
  if isRemote then
    let removed := e.removeFile staged.2 localPath
    if removed.2 then (b1, removed.1, Outcome.returned)
    else (b1, removed.1, Outcome.threw "Couldn't delete tmp file")
  else
    (b1, staged.2, Outcome.returned)

/-- The method `Builder::insert(const std::string path)`: the new builder, the
tasks added to the pool by this call, and the returned value. -/
def Builder.insertPath (e : Env B S M R W) (b : Builder B S M R) (path : String) :
    Builder B S M R × List Task × Bool :=
  let driver := e.inferReaderDriver path
  if driver = "" then
    ({ b with manifest := e.addOmission b.manifest path }, [], false)
  else
    let added := e.addOrigin b.manifest path
    let origin := added.2
    if origin = e.invalidOrigin then
      ({ b with manifest := added.1 }, [], false)
    else
      ({ b with manifest := added.1 },
        [{ driver := driver, origin := origin, path := path }], true)

/-! ## Construction -/

/-- The method `Builder::prep`, on the two sources of the builder under
construction: the new file-system state, or the message of the exception. -/
def Builder.prep (e : Env B S M R W) (w : W) (buildSource tmpSource : Source) :
    Except String W :=
  if tmpSource.isRemote then
    Except.error "Tmp path must be local"
  else
    let tmpDir := e.mkdirp w tmpSource.path
    if !tmpDir.2 then
      Except.error "Couldn't create tmp directory"
    else if !buildSource.isRemote then
      let buildDir := e.mkdirp tmpDir.1 buildSource.path
      if !buildDir.2 then
        Except.error "Couldn't create local build directory"
      else
        Except.ok buildDir.1
    else
      Except.ok tmpDir.1

/-- The configuration constructor `Builder::Builder(buildPath, tmpPath,
reprojection, bbox, dimList, numThreads, numDimensions, chunkPoints,
baseDepth, flatDepth, diskDepth, arbiter)`. -/
def Builder.create (e : Env B S M R W) (w : W) (buildPath tmpPath : String)
    (reprojection : Option Reprojection) (bbox : B) (dimList : List DimInfo)
    (_numThreads numDimensions chunkPoints baseDepth flatDepth diskDepth : Nat) :
    Except String (Builder B S M R × W) :=
  let schema := e.schemaOf dimList
  let buildSource := e.getSource buildPath
  let tmpSource := e.getSource tmpPath
  let b : Builder B S M R :=
    { reprojection := reprojection
      bbox := bbox
      schema := schema
      originId := e.findDim schema "Origin"
      dimensions := numDimensions
      chunkPoints := chunkPoints
      numPoints := 0
      numTossed := 0
      manifest := e.manifestEmpty
      buildSource := buildSource
      tmpSource := tmpSource
      registry := e.registryNew buildSource schema numDimensions chunkPoints
        baseDepth flatDepth diskDepth }
  match Builder.prep e w buildSource tmpSource with
  | Except.error what => Except.error what
  | Except.ok w1 =>
    if b.dimensions ≠ 2 then
      Except.error "TODO - Only 2 dimensions so far"
    else
      Except.ok (b, w1)

/-! ## Metadata -/

/-- The method `Builder::saveProps`. -/
def Builder.saveProps (e : Env B S M R W) (b : Builder B S M R) : Json :=
  let props := Json.null
  let props := props.set "bbox" (e.bboxToJson b.bbox)
  let props := props.set "schema" (e.schemaToJson b.schema)
  let props := props.set "dimensions" (Json.uint b.dimensions)
  let props := props.set "chunkPoints" (Json.uint b.chunkPoints)
  let props := props.set "numPoints" (Json.uint b.numPoints)
  let props := props.set "numTossed" (Json.uint b.numTossed)
  let props := props.set "manifest" (e.manifestToJson b.manifest)
  props

/-- The seven values that `Builder::loadProps` assigns. -/
structure Props (B S M : Type) where
  bbox : B
  schema : S
  dimensions : Nat
  chunkPoints : Nat
  numPoints : Nat
  numTossed : Nat
  manifest : M

/-- The right-hand sides of the assignments of `Builder::loadProps`; `none`
when one of the `asUInt64` conversions fails. -/
def readProps (e : Env B S M R W) (props : Json) : Option (Props B S M) :=
  match (props.get "dimensions").asUInt64, (props.get "chunkPoints").asUInt64,
      (props.get "numPoints").asUInt64, (props.get "numTossed").asUInt64 with
  | some dimensions, some chunkPoints, some numPoints, some numTossed =>
    some
      { bbox := e.bboxFromJson (props.get "bbox")
        schema := e.schemaFromJson (props.get "schema")
        dimensions := dimensions
        chunkPoints := chunkPoints
        numPoints := numPoints
        numTossed := numTossed
        manifest := e.manifestFromJson (props.get "manifest") }
  | _, _, _, _ => none

/-- The method `Builder::loadProps` on an existing builder. -/
def Builder.loadProps (e : Env B S M R W) (b : Builder B S M R) (props : Json) :
    Option (Builder B S M R) :=
  match readProps e props with
  | some p =>
    some
      { b with
        bbox := p.bbox
        schema := p.schema
        dimensions := p.dimensions
        chunkPoints := p.chunkPoints
        numPoints := p.numPoints
        numTossed := p.numTossed
        manifest := p.manifest }
  | none => none

/-- The value that `Json::Reader::parse` leaves in `meta`: the parsed document,
or null when the data is no JSON text. -/
def parseMeta (data : Blob) : Json :=
  match data with
  | Blob.text j => j
  | Blob.raw _ => Json.null

/-- The JSON value that `Builder::save` puts under the key `meta`, with the
registry after `m_registry->save(jsonMeta["registry"])`. -/
def Builder.saveMeta (e : Env B S M R W) (b : Builder B S M R) : R × Json :=
  let jsonMeta := Builder.saveProps e b
  let jsonMeta := jsonMeta.set "registry" (jsonMeta.get "registry")
  let saved := e.registrySave b.registry (jsonMeta.get "registry")
  (saved.1, jsonMeta.set "registry" saved.2)

/-- The method `Builder::save`, called when the pool holds no unfinished task
(`m_pool->join()` returns at once). -/
def Builder.save (e : Env B S M R W) (w : W) (b : Builder B S M R) :
    Builder B S M R × W :=
  let saved := Builder.saveMeta e b
  ({ b with registry := saved.1 }, e.put w b.buildSource "meta" (Blob.text saved.2))

/-- The loading constructor `Builder::Builder(buildPath, tmpPath, reprojection,
numThreads, arbiter)`: `prep()` followed by `load()`.  A build source without
`meta` and a failing `asUInt64` conversion end the construction with an
exception. -/
def Builder.load (e : Env B S M R W) (w : W) (buildPath tmpPath : String)
    (reprojection : Option Reprojection) (_numThreads : Nat) :
    Except String (Builder B S M R × W) :=
  let buildSource := e.getSource buildPath
  let tmpSource := e.getSource tmpPath
  match Builder.prep e w buildSource tmpSource with
  | Except.error what => Except.error what
  | Except.ok w1 =>
    match e.getAsString w1 buildSource "meta" with
    | none => Except.error "meta not found"
    | some data =>
      let jsonMeta := parseMeta data
      match readProps e jsonMeta with
      | none => Except.error "value is not convertible to UInt64"
      | some p =>
        Except.ok
          ({ reprojection := reprojection
             bbox := p.bbox
             schema := p.schema
             originId := e.findDim p.schema "Origin"
             dimensions := p.dimensions
             chunkPoints := p.chunkPoints
             numPoints := p.numPoints
             numTossed := p.numTossed
             manifest := p.manifest
             buildSource := buildSource
             tmpSource := tmpSource
             registry := e.registryLoad buildSource p.schema p.dimensions p.chunkPoints
               (jsonMeta.get "registry") }, w1)

/-! ## Finalize -/

/-- The metadata block of `Builder::finalize`: `saveProps()` with `numIds`,
`firstChunk` and `chunkPoints` assigned. -/
def Builder.entwineMeta (e : Env B S M R W) (b : Builder B S M R) (ids : List Nat)
    (baseEnd chunkPoints : Nat) : Json :=
  let jsonMeta := Builder.saveProps e b
  let jsonMeta := jsonMeta.set "numIds" (Json.uint ids.length)
  let jsonMeta := jsonMeta.set "firstChunk" (Json.uint baseEnd)
  let jsonMeta := jsonMeta.set "chunkPoints" (Json.uint chunkPoints)
  jsonMeta

/-- The loop of `Builder::finalize` that fills `jsonIds`, for a list that its
32-bit counter `Json::ArrayIndex` can run through. -/
def idsJson (ids : List Nat) : Json :=
  ids.foldl (fun jsonIds id => jsonIds.append (Json.uint id)) Json.null

/-- The method `Builder::finalize(path, chunkPoints, base, compress)`, called
when the pool holds no unfinished task.  The loop over the ids counts with a
32-bit `Json::ArrayIndex`, which never reaches a size of `2 ^ 32` or more. -/
def Builder.finalize (e : Env B S M R W) (w : W) (b : Builder B S M R) (path : String)
    (chunkPoints base : Nat) (_compress : Bool) : Builder B S M R × W × Outcome :=
  let outputSource := e.getSource path
  let outputDir := if !outputSource.isRemote then e.mkdirp w outputSource.path else (w, true)
  if !outputDir.2 then
    (b, outputDir.1, Outcome.threw ("Could not create " ++ outputSource.path))
  else
    let baseEnd := e.calcOffset base b.dimensions
    let finalized := e.registryFinalize b.registry outputSource baseEnd chunkPoints
    let b1 := { b with registry := finalized.1 }
    let ids := finalized.2
    let w1 := e.put outputDir.1 outputSource "entwine"
      (Blob.text (Builder.entwineMeta e b1 ids baseEnd chunkPoints))
    if ids.length < 2 ^ 32 then
      (b1, e.put w1 outputSource "ids" (Blob.text (idsJson ids)), Outcome.returned)
    else
      (b1, w1, Outcome.hangs)

/-! ## Vocabulary of the statements -/

/-- The value of a `std::size_t` counter after `k` increments. -/
def bump (n : Nat) : Nat → Nat
  | 0 => n
  | k + 1 => (bump n k + 1) % sizeMod

/-- The arguments of the call `m_registry->addPoint(&pointInfo, roller, clipper)`
for a record of the view: key, payload with `Origin` written, fresh roller. -/
def registryCall (e : Env B S M R W) (b : Builder B S M R) (origin : Nat) (r : Record) :
    PointInfo × Roller B :=
  ({ point := { x := r.x, y := r.y }
     data := { r with origin := origin }
     size := e.pointSize b.schema }, Roller.root b.bbox)

/-- Whether the root bounding box contains the key of a record. -/
def inRoot (e : Env B S M R W) (b : Builder B S M R) (r : Record) : Bool :=
  e.contains b.bbox { x := r.x, y := r.y }

/-- The registry after a sequence of `addPoint` calls, with the value each
call returned. -/
def addPoints (e : Env B S M R W) : R → List (PointInfo × Roller B) → R × List Bool
  | reg, [] => (reg, [])
  | reg, c :: cs =>
    let out := e.addPoint reg c.1 c.2
    let rest := addPoints e out.1 cs
    (rest.1, out.2 :: rest.2)

/-! ## A concrete set of collaborators

A small instance of `Env`, used to run the definitions on concrete inputs: a
square root box with corner `(0, 0)`, a registry that holds at most two
points, a manifest that refuses a path it already knows, and a file system in
which the empty path cannot be created and the file `/tmp/locked` cannot be
removed.  The registry saves the number of points it holds and is loaded with
that many points. -/

/-- The file system and blob stores of the concrete instance. -/
structure DemoWorld where
  dirs : List String
  blobs : List ((Source × String) × Blob)

/-- The strings of a JSON array of strings. -/
def jsonStrings (j : Json) : List String :=
  match j with
  | Json.arr items =>
    items.filterMap (fun item =>
      match item with
      | Json.str s => some s
      | _ => none)
  | _ => []

/-- Modelled from the spec: `Branch::calcOffset`, which is not part of the
sources at hand ("the cumulative node count of a complete 4-ary tree:
`calcOffset(depth, 2) = (4^depth − 1) / 3`"). -/
def demoCalcOffset (depth dimensions : Nat) : Nat :=
  ((2 ^ dimensions) ^ depth - 1) / (2 ^ dimensions - 1)

/-- The concrete collaborators. -/
def demoEnv : Env Nat Nat (List String × List String) (List Point) DemoWorld where
  getSource := fun path => { isRemote := path.data.take 5 = "s3://".data, path := path }
  resolve := fun source subpath => source.path ++ "/" ++ subpath
  getRoot := fun _ _ => [1, 2, 3]
  getAsString := fun w source key => w.blobs.lookup (source, key)
  put := fun w source key blob => { w with blobs := ((source, key), blob) :: w.blobs }
  mkdirp := fun w path =>
    if path = "" then (w, false) else ({ w with dirs := path :: w.dirs }, true)
  removeFile := fun w path => (w, path ≠ "/tmp/locked")
  inferReaderDriver := fun path =>
    if path.data.reverse.take 4 = ".las".data.reverse then "readers.las" else ""
  execute := fun _ _ _ path =>
    if path = "a.las" then
      [ReaderEvent.callback 0, ReaderEvent.point { x := 1, y := 1, origin := 0, rest := [] },
       ReaderEvent.callback 1, ReaderEvent.point { x := 20, y := 3, origin := 0, rest := [] },
       ReaderEvent.callback 2, ReaderEvent.point { x := 2, y := 5, origin := 0, rest := [] },
       ReaderEvent.callback 3, ReaderEvent.point { x := 7, y := 7, origin := 0, rest := [] }]
    else []
  reproject := fun _ r => { r with x := r.x + 1 }
  contains := fun side p => decide (0 ≤ p.x ∧ p.x < side ∧ 0 ≤ p.y ∧ p.y < side)
  bboxToJson := fun side => Json.uint side
  bboxFromJson := fun j => j.asUInt64.getD 0
  schemaOf := fun dims => (dims.map DimInfo.size).sum
  pointSize := fun size => size
  findDim := fun _ _ => 0
  schemaToJson := fun size => Json.uint size
  schemaFromJson := fun j => j.asUInt64.getD 0
  manifestEmpty := ([], [])
  addOmission := fun m path => (m.1, m.2 ++ [path])
  addOrigin := fun m path =>
    if path ∈ m.1 then (m, 18446744073709551615) else ((m.1 ++ [path], m.2), m.1.length)
  invalidOrigin := 18446744073709551615
  manifestToJson := fun m =>
    (Json.null.set "origins" (Json.arr (m.1.map Json.str))).set "omissions"
      (Json.arr (m.2.map Json.str))
  manifestFromJson := fun j => (jsonStrings (j.get "origins"), jsonStrings (j.get "omissions"))
  registryNew := fun _ _ _ _ _ _ _ => []
  registryLoad := fun _ _ _ _ j => List.replicate (j.asUInt64.getD 0) { x := 0, y := 0 }
  addPoint := fun reg info _ =>
    if reg.length < 2 then (reg ++ [info.point], true) else (reg, false)
  releaseClipper := fun reg => reg
  registrySave := fun reg _ => (reg, Json.uint reg.length)
  registryFinalize := fun reg _ _ _ => (reg, reg.map (fun p => p.x.toNat))
  calcOffset := demoCalcOffset

/-- A builder over the concrete collaborators: root box of side 16, local
build and tmp sources. -/
def demoBuilder : Builder Nat Nat (List String × List String) (List Point) where
  reprojection := none
  bbox := 16
  schema := 24
  originId := 0
  dimensions := 2
  chunkPoints := 4
  numPoints := 0
  numTossed := 0
  manifest := ([], [])
  buildSource := { isRemote := false, path := "/data/build" }
  tmpSource := { isRemote := false, path := "/tmp" }
  registry := []

/-- A view of four records: the second lies outside the box of `demoBuilder`,
and the registry of `demoEnv` is full after two points. -/
def demoView : List Record :=
  [{ x := 1, y := 1, origin := 0, rest := [] },
   { x := 20, y := 3, origin := 0, rest := [] },
   { x := 2, y := 5, origin := 0, rest := [] },
   { x := 7, y := 7, origin := 0, rest := [] }]

/-- The builder `demoBuilder` with records of 40000 bytes, so that two records
exceed `chunkBytes`. -/
def demoBigBuilder : Builder Nat Nat (List String × List String) (List Point) :=
  { demoBuilder with schema := 40000 }

/-- The task that `Builder::insert("a.las")` submits for origin 0. -/
def demoTask : Task :=
  { driver := "readers.las", origin := 0, path := "a.las" }

/-- A well-formed `meta` document whose `dimensions` member is 3. -/
def demoMetaThree : Json :=
  Json.obj
    [("bbox", Json.uint 16), ("chunkPoints", Json.uint 4), ("dimensions", Json.uint 3),
     ("manifest", Json.obj [("omissions", Json.arr []), ("origins", Json.arr [])]),
     ("numPoints", Json.uint 0), ("numTossed", Json.uint 0), ("registry", Json.uint 0),
     ("schema", Json.uint 24)]

/-- A file system whose build source `/data/build` holds `demoMetaThree`
under the key `meta`. -/
def demoWorldThree : DemoWorld :=
  { dirs := []
    blobs := [(({ isRemote := false, path := "/data/build" }, "meta"), Blob.text demoMetaThree)] }

/-- The builder `demoBuilder` after the insertion of `demoView` for origin 7. -/
def demoFilled : Builder Nat Nat (List String × List String) (List Point) :=
  (Builder.insertView demoEnv 7 demoBuilder demoView).1

/-- The builder `demoBuilder` whose registry holds the points `(5, 0)` and
`(3, 0)`; the registry of `demoEnv` finalizes into the chunk ids 5 and 3. -/
def demoUnordered : Builder Nat Nat (List String × List String) (List Point) :=
  { demoBuilder with registry := [{ x := 5, y := 0 }, { x := 3, y := 0 }] }

/-- The builder `demoBuilder` whose registry holds `2 ^ 32` points. -/
def demoHuge : Builder Nat Nat (List String × List String) (List Point) :=
  { demoBuilder with registry := List.replicate (2 ^ 32) { x := 0, y := 0 } }

/-- The empty file system. -/
def demoWorld : DemoWorld :=
  { dirs := [], blobs := [] }

/-- Whether a reader is in step with the callback: every callback carries
the number of records stored before it, `k` records having been stored before
the run. -/
def inStep : Nat → List ReaderEvent → Bool
  | _, [] => true
  | k, ReaderEvent.point _ :: rest => inStep (k + 1) rest
  | k, ReaderEvent.callback index :: rest => decide (index = k) && inStep k rest

/-- The scratch table of the task `demoTask` on `demoBigBuilder` when the
callback is called with index 2: two records of 40000 bytes. -/
def demoScratch : Scratch :=
  { table := [{ x := 1, y := 1, origin := 0, rest := [] },
              { x := 20, y := 3, origin := 0, rest := [] }]
    begin := 0 }

/-- The collaborators `demoEnv` with a file system in which no file can be
removed. -/
def demoLockedEnv : Env Nat Nat (List String × List String) (List Point) DemoWorld :=
  { demoEnv with removeFile := fun w _ => (w, false) }

/-- The task that `Builder::insert("s3://bucket/a.las")` submits for origin 12. -/
def demoRemoteTask : Task :=
  { driver := "readers.las", origin := 12, path := "s3://bucket/a.las" }

/-! ## Counters -/

theorem bump_succ_left (n k : Nat) : bump ((n + 1) % sizeMod) k = bump n (k + 1) := by
  induction k with
  | zero => rfl
  | succ k ih => simp only [bump] at ih ⊢; rw [ih]

theorem bump_mod (n k : Nat) : bump n k % sizeMod = (n + k) % sizeMod := by
  induction k with
  | zero => rfl
  | succ k ih =>
    simp only [bump, Nat.mod_mod]
    rw [Nat.add_mod, ih, ← Nat.add_mod, Nat.add_assoc]

theorem bump_exact (n k : Nat) (h : n + k < sizeMod) : bump n k = n + k := by
  induction k with
  | zero => rfl
  | succ k ih =>
    simp only [bump]
    rw [ih (by omega), Nat.mod_eq_of_lt (by omega)]
    rfl

theorem bump_add (n j k : Nat) : bump (bump n j) k = bump n (j + k) := by
  induction k with
  | zero => rfl
  | succ k ih =>
    show (bump (bump n j) k + 1) % sizeMod = (bump n (j + k) + 1) % sizeMod
    rw [ih]

/-! ## One view -/

theorem insertView_eq (e : Env B S M R W) (origin : Nat) (view : List Record) :
    ∀ b : Builder B S M R,
      Builder.insertView e origin b view =
        ({ b with
            registry :=
              (addPoints e b.registry
                ((view.filter (inRoot e b)).map (registryCall e b origin))).1
            numPoints := bump b.numPoints
              ((addPoints e b.registry
                ((view.filter (inRoot e b)).map (registryCall e b origin))).2.count true)
            numTossed := bump b.numTossed
              ((view.filter (fun r => !inRoot e b r)).length +
                (addPoints e b.registry
                  ((view.filter (inRoot e b)).map (registryCall e b origin))).2.count false) },
          view.map (fun r => if inRoot e b r then { r with origin := origin } else r)) := by
  have hI : ∀ b : Builder B S M R,
      inRoot e b = fun r => e.contains b.bbox { x := r.x, y := r.y } := fun _ => rfl
  have hC : ∀ b : Builder B S M R,
      registryCall e b origin = fun r =>
        (({ point := { x := r.x, y := r.y }
            data := { r with origin := origin }
            size := e.pointSize b.schema } : PointInfo), Roller.root b.bbox) := fun _ => rfl
  simp only [hI, hC]
  induction view with
  | nil => intro b; rfl
  | cons r rs ih =>
    intro b
    rw [Builder.insertView]
    cases hc : e.contains b.bbox { x := r.x, y := r.y } with
    | true =>
      cases hadd : e.addPoint b.registry
          { point := { x := r.x, y := r.y }
            data := { r with origin := origin }
            size := e.pointSize b.schema } (Roller.root b.bbox) with
      | mk reg ok =>
        cases ok with
        | true =>
          have hstep : Builder.insertPoint e origin b r =
              ({ b with registry := reg, numPoints := (b.numPoints + 1) % sizeMod },
                { r with origin := origin }) := by
            simp only [Builder.insertPoint, hc, if_true, hadd]
          rw [hstep]
          simp only [ih]
          simp [List.filter_cons, hc, addPoints, hadd, bump_succ_left]
        | false =>
          have hstep : Builder.insertPoint e origin b r =
              ({ b with registry := reg, numTossed := (b.numTossed + 1) % sizeMod },
                { r with origin := origin }) := by
            simp only [Builder.insertPoint, hc, if_true, hadd]
          rw [hstep]
          simp only [ih]
          simp [List.filter_cons, hc, addPoints, hadd, bump_succ_left]
          exact congrArg _ (by omega)
    | false =>
      have hstep : Builder.insertPoint e origin b r =
          ({ b with numTossed := (b.numTossed + 1) % sizeMod }, r) := by
        simp [Builder.insertPoint, hc]
      rw [hstep]
      simp only [ih]
      simp [List.filter_cons, hc, addPoints, bump_succ_left]
      exact congrArg _ (by omega)

theorem addPoints_length (e : Env B S M R W) (calls : List (PointInfo × Roller B)) :
    ∀ reg : R, (addPoints e reg calls).2.length = calls.length := by
  induction calls with
  | nil => intro reg; rfl
  | cons c cs ih => intro reg; simp [addPoints, ih]

theorem count_true_add_false (l : List Bool) : l.count true + l.count false = l.length := by
  induction l with
  | nil => rfl
  | cons a l ih => cases a <;> simp [List.count_cons] <;> omega

theorem filter_length_split {α : Type} (p : α → Bool) (l : List α) :
    (l.filter p).length + (l.filter (fun a => !p a)).length = l.length := by
  induction l with
  | nil => rfl
  | cons a l ih => cases h : p a <;> simp [List.filter_cons, h] <;> omega

theorem insertView_counters (e : Env B S M R W) (origin : Nat) (b : Builder B S M R)
    (view : List Record) :
    (Builder.insertView e origin b view).1.numPoints =
        bump b.numPoints
          ((addPoints e b.registry
            ((view.filter (inRoot e b)).map (registryCall e b origin))).2.count true) ∧
      (Builder.insertView e origin b view).1.numTossed =
        bump b.numTossed
          ((view.filter (fun r => !inRoot e b r)).length +
            (addPoints e b.registry
              ((view.filter (inRoot e b)).map (registryCall e b origin))).2.count false) ∧
      (addPoints e b.registry
          ((view.filter (inRoot e b)).map (registryCall e b origin))).2.count true +
        ((view.filter (fun r => !inRoot e b r)).length +
          (addPoints e b.registry
            ((view.filter (inRoot e b)).map (registryCall e b origin))).2.count false) =
        view.length := by
  refine ⟨by simp only [insertView_eq], by simp only [insertView_eq], ?_⟩
  have hlen := addPoints_length e ((view.filter (inRoot e b)).map (registryCall e b origin))
    b.registry
  rw [List.length_map] at hlen
  have hsplit := filter_length_split (inRoot e b) view
  have hcount := count_true_add_false (addPoints e b.registry
    ((view.filter (inRoot e b)).map (registryCall e b origin))).2
  omega

/-- C2: after `Builder::insert(view, origin, clipper)` the counter `numPoints`
has grown by the number of points inside the root box for which
`Registry.addPoint` returned true, and `numTossed` by the number of all other
points (outside the box, or refused by the registry); the two numbers add up
to `view.size()`.  The counters are `std::size_t`: the growth is exact modulo
`2 ^ 64`, and exact as a number whenever the counter does not wrap. -/
theorem insertView_accounting (e : Env B S M R W) (origin : Nat) (b : Builder B S M R)
    (view : List Record) :
    let calls := (view.filter (inRoot e b)).map (registryCall e b origin)
    let results := (addPoints e b.registry calls).2
    let accepted := results.count true
    let tossed := (view.filter (fun r => !inRoot e b r)).length + results.count false
    let out := (Builder.insertView e origin b view).1
    results.length = (view.filter (inRoot e b)).length ∧
      accepted + tossed = view.length ∧
      out.numPoints % sizeMod = (b.numPoints + accepted) % sizeMod ∧
      out.numTossed % sizeMod = (b.numTossed + tossed) % sizeMod ∧
      (b.numPoints + accepted < sizeMod → out.numPoints = b.numPoints + accepted) ∧
      (b.numTossed + tossed < sizeMod → out.numTossed = b.numTossed + tossed) := by
  intro calls results accepted tossed out
  have hlen : results.length = (view.filter (inRoot e b)).length := by
    simp only [results, calls, addPoints_length, List.length_map]
  obtain ⟨hp, ht, hsum⟩ := insertView_counters e origin b view
  refine ⟨hlen, hsum, ?_, ?_, ?_, ?_⟩
  · rw [hp, bump_mod]
  · rw [ht, bump_mod]
  · intro h; rw [hp, bump_exact _ _ h]
  · intro h; rw [ht, bump_exact _ _ h]

/-- A run of C2 on `demoView`: two points are accepted, one lies outside the
box and one is refused by the full registry. -/
theorem insertView_accounting_witness :
    (0 + 2 < sizeMod ∧
        (Builder.insertView demoEnv 7 demoBuilder demoView).1.numPoints = 0 + 2) ∧
      (0 + (1 + 1) < sizeMod ∧
        (Builder.insertView demoEnv 7 demoBuilder demoView).1.numTossed = 0 + (1 + 1)) :=
  ⟨⟨by decide, (insertView_accounting demoEnv 7 demoBuilder demoView).2.2.2.2.1 (by decide)⟩,
    ⟨by decide, (insertView_accounting demoEnv 7 demoBuilder demoView).2.2.2.2.2 (by decide)⟩⟩

/-- C3: during `Builder::insert(view, origin, clipper)` the registry receives
exactly one `addPoint` call for each point of the view inside the root box, in
view order, and none for a point outside: its final state is the initial one
after exactly these calls.  Each call carries the key `(x, y)` read from the
view, the record with `Origin` already set to `origin`, and a roller at the
root (root box, index 0); every key passed satisfies `contains`.  In the view
the records outside the box are unchanged. -/
theorem insertView_registry_calls (e : Env B S M R W) (origin : Nat) (b : Builder B S M R)
    (view : List Record) :
    let inside : Record → Bool := fun r => e.contains b.bbox { x := r.x, y := r.y }
    let calls : List (PointInfo × Roller B) :=
      (view.filter inside).map (fun r =>
        ({ point := { x := r.x, y := r.y }
           data := { x := r.x, y := r.y, origin := origin, rest := r.rest }
           size := e.pointSize b.schema },
         { bbox := b.bbox, index := 0 }))
    let out := Builder.insertView e origin b view
    out.1.registry = (addPoints e b.registry calls).1 ∧
      (∀ c ∈ calls, e.contains b.bbox c.1.point = true) ∧
      out.2 = view.map (fun r => if inside r then { r with origin := origin } else r) ∧
      out.1.bbox = b.bbox := by
  intro inside calls out
  refine ⟨?_, ?_, ?_, ?_⟩
  · simp only [out, insertView_eq]; rfl
  · intro c hc
    simp only [calls, List.mem_map, List.mem_filter] at hc
    obtain ⟨r, ⟨_, hr⟩, rfl⟩ := hc
    exact hr
  · simp only [out, insertView_eq]; rfl
  · simp only [out, insertView_eq]

/-- A run of C3 on `demoView`: the key of the first call lies in the root box. -/
theorem insertView_registry_calls_witness :
    demoEnv.contains demoBuilder.bbox { x := 1, y := 1 } = true :=
  (insertView_registry_calls demoEnv 7 demoBuilder demoView).2.1
    ({ point := { x := 1, y := 1 }
       data := { x := 1, y := 1, origin := 7, rest := [] }
       size := 24 }, { bbox := 16, index := 0 })
    (by decide)

/-! ## One file task -/

theorem insertView_append (e : Env B S M R W) (origin : Nat) (v1 v2 : List Record) :
    ∀ b : Builder B S M R,
      (Builder.insertView e origin b (v1 ++ v2)).1 =
        (Builder.insertView e origin (Builder.insertView e origin b v1).1 v2).1 := by
  induction v1 with
  | nil => intro b; rfl
  | cons r rs ih =>
    intro b
    show (Builder.insertView e origin (Builder.insertPoint e origin b r).1 (rs ++ v2)).1 =
      (Builder.insertView e origin
        (Builder.insertView e origin (Builder.insertPoint e origin b r).1 rs).1 v2).1
    exact ih _

theorem insertView_reprojection (e : Env B S M R W) (origin : Nat) (b : Builder B S M R)
    (view : List Record) :
    (Builder.insertView e origin b view).1.reprojection = b.reprojection := by
  simp only [insertView_eq]

theorem insertView_schema (e : Env B S M R W) (origin : Nat) (b : Builder B S M R)
    (view : List Record) :
    (Builder.insertView e origin b view).1.schema = b.schema := by
  simp only [insertView_eq]

theorem linkView_append (e : Env B S M R W) (reprojection : Option Reprojection)
    (t1 t2 : List Record) :
    linkView e reprojection (t1 ++ t2) =
      linkView e reprojection t1 ++ linkView e reprojection t2 := by
  cases reprojection <;> simp [linkView]

theorem linkView_nil (e : Env B S M R W) (reprojection : Option Reprojection) :
    linkView e reprojection [] = [] := by
  cases reprojection <;> rfl

theorem linkView_length (e : Env B S M R W) (reprojection : Option Reprojection)
    (table : List Record) : (linkView e reprojection table).length = table.length := by
  cases reprojection <;> simp [linkView]

/-- Batching is invisible: after any run of the reader, inserting what the
scratch table still holds gives the builder that one insert of all stored
records would give. -/
theorem deliver_fold (e : Env B S M R W) (origin : Nat) (events : List ReaderEvent) :
    ∀ (b : Builder B S M R) (scratch : Scratch),
      (events.foldl (Builder.deliver e origin) (b, scratch)).1.reprojection = b.reprojection ∧
      (Builder.insertView e origin (events.foldl (Builder.deliver e origin) (b, scratch)).1
          (linkView e b.reprojection
            (events.foldl (Builder.deliver e origin) (b, scratch)).2.table)).1 =
        (Builder.insertView e origin b
          (linkView e b.reprojection (scratch.table ++ storedRecords events))).1 := by
  induction events with
  | nil => intro b scratch; simp [storedRecords]
  | cons ev rest ih =>
    intro b scratch
    rw [List.foldl_cons]
    cases ev with
    | point r =>
      have hstep : Builder.deliver e origin (b, scratch) (ReaderEvent.point r) =
          (b, { scratch with table := scratch.table ++ [r] }) := rfl
      have hstored : storedRecords (ReaderEvent.point r :: rest) = r :: storedRecords rest := rfl
      rw [hstep, hstored]
      have h := ih b { scratch with table := scratch.table ++ [r] }
      refine ⟨h.1, ?_⟩
      rw [h.2]
      simp
    | callback index =>
      have hstored : storedRecords (ReaderEvent.callback index :: rest) = storedRecords rest :=
        rfl
      rw [hstored]
      by_cases hflush :
          scratch.table.length =
              (index % sizeMod + sizeMod - scratch.begin % sizeMod) % sizeMod ∧
            Scratch.dataSize (e.pointSize b.schema) scratch > chunkBytes
      · have hstep : Builder.deliver e origin (b, scratch) (ReaderEvent.callback index) =
            ((Builder.insertView e origin b (linkView e b.reprojection scratch.table)).1,
              { table := []
                begin := (scratch.begin +
                  (index % sizeMod + sizeMod - scratch.begin % sizeMod) % sizeMod) %
                    sizeMod }) := by
          simp only [Builder.deliver, Builder.readCb]
          rw [if_pos hflush]
        rw [hstep]
        have h := ih (Builder.insertView e origin b (linkView e b.reprojection scratch.table)).1
              { table := []
                begin := (scratch.begin +
                  (index % sizeMod + sizeMod - scratch.begin % sizeMod) % sizeMod) % sizeMod }
        rw [insertView_reprojection] at h
        refine ⟨h.1, ?_⟩
        rw [h.2, List.nil_append, ← insertView_append, ← linkView_append]
      · have hstep : Builder.deliver e origin (b, scratch) (ReaderEvent.callback index) =
            (b, scratch) := by
          simp only [Builder.deliver, Builder.readCb]
          rw [if_neg hflush]
        rw [hstep]
        exact ih b scratch

theorem ingest_eq (e : Env B S M R W) (origin : Nat) (b : Builder B S M R)
    (events : List ReaderEvent) :
    Builder.ingest e origin b events =
      { (Builder.insertView e origin b
          (linkView e b.reprojection (storedRecords events))).1 with
        registry := e.releaseClipper
          (Builder.insertView e origin b
            (linkView e b.reprojection (storedRecords events))).1.registry } := by
  have h := deliver_fold e origin events b { table := [], begin := 0 }
  simp only [Builder.ingest]
  rw [h.1, h.2, List.nil_append]

theorem insertView_sum (e : Env B S M R W) (origin : Nat) (b : Builder B S M R)
    (view : List Record) :
    ((Builder.insertView e origin b view).1.numPoints +
        (Builder.insertView e origin b view).1.numTossed) % sizeMod =
      (b.numPoints + b.numTossed + view.length) % sizeMod ∧
    (b.numPoints + b.numTossed + view.length < sizeMod →
      (Builder.insertView e origin b view).1.numPoints +
        (Builder.insertView e origin b view).1.numTossed =
      b.numPoints + b.numTossed + view.length) := by
  obtain ⟨hp, ht, hsum⟩ := insertView_counters e origin b view
  constructor
  · rw [hp, ht, Nat.add_mod, bump_mod, bump_mod, ← Nat.add_mod, ← hsum]
    exact congrArg (· % sizeMod) (by omega)
  · intro hlt
    rw [hp, ht, bump_exact _ _ (by omega), bump_exact _ _ (by omega)]
    omega

theorem runTask_builder (e : Env B S M R W) (w : W) (b : Builder B S M R) (t : Task) :
    (Builder.runTask e w b t).1 =
      match createReader t.driver (Builder.stage e w b t).1 with
      | some reader =>
        Builder.ingest e t.origin b
          (e.execute (Builder.stage e w b t).2 b.reprojection reader.1 reader.2)
      | none => b := by
  simp only [Builder.runTask]
  split <;> [split; skip] <;> rfl

/-- C1: conservation over one file task.  Let `n` be the number of records
that the reader stores in the point table.  Whatever indices the reader hands
to the callback (and whenever it calls it), and however the task ends, the
builder after the task has the counters (and, up to the release of the
clipper, the registry) that a single `Builder::insert` of all `n` records, in
the order of their arrival, gives: every delivered point reaches
`Builder::insert(view, origin, clipper)` exactly once, in a flush or in the
final leftover insert.  Hence `numPoints + numTossed` grows by `n`, exactly
modulo `2 ^ 64` and exactly as a number when the `std::size_t` counters do
not wrap. -/
theorem task_conservation (e : Env B S M R W) (w : W) (b : Builder B S M R) (t : Task) :
    let points := storedRecords (Builder.delivered e w b t)
    let whole := (Builder.insertView e t.origin b (linkView e b.reprojection points)).1
    let out := (Builder.runTask e w b t).1
    out.numPoints = whole.numPoints ∧
      out.numTossed = whole.numTossed ∧
      (out.registry = whole.registry ∨ out.registry = e.releaseClipper whole.registry) ∧
      (out.numPoints + out.numTossed) % sizeMod =
        (b.numPoints + b.numTossed + points.length) % sizeMod ∧
      (b.numPoints + b.numTossed + points.length < sizeMod →
        out.numPoints + out.numTossed = b.numPoints + b.numTossed + points.length) := by
  intro points whole out
  have hsum := insertView_sum e t.origin b (linkView e b.reprojection points)
  rw [linkView_length] at hsum
  have hout : out.numPoints = whole.numPoints ∧ out.numTossed = whole.numTossed ∧
      (out.registry = whole.registry ∨ out.registry = e.releaseClipper whole.registry) := by
    simp only [out, whole, points, runTask_builder, Builder.delivered]
    cases createReader t.driver (Builder.stage e w b t).1 with
    | none => simp [storedRecords, linkView_nil, Builder.insertView]
    | some reader => simp [ingest_eq]
  obtain ⟨hp, ht, hr⟩ := hout
  refine ⟨hp, ht, hr, ?_, ?_⟩
  · rw [hp, ht]; exact hsum.1
  · intro hlt; rw [hp, ht]; exact hsum.2 hlt

/-- A run of C1: the file `a.las` delivers four points, the callback flushes
the first two, the other two are left over, and the two counters grow by four
together. -/
theorem task_conservation_witness :
    0 + 0 + 4 < sizeMod ∧
      (Builder.runTask demoEnv demoWorld demoBigBuilder demoTask).1.numPoints +
        (Builder.runTask demoEnv demoWorld demoBigBuilder demoTask).1.numTossed = 0 + 0 + 4 :=
  ⟨by decide, (task_conservation demoEnv demoWorld demoBigBuilder demoTask).2.2.2.2 (by decide)⟩

/-! ## Construction -/

/-- C4: the configuration constructor throws if and only if the tmp source is
remote, or creating the tmp directory fails, or the build source is local and
creating the build directory fails, or `numDimensions` is not 2 (the
collaborators' constructors are total here).  So a remote tmp path is
rejected whatever the other arguments are, and with a remote build source no
build directory is created and none can fail. -/
theorem create_throws_iff (e : Env B S M R W) (w : W) (buildPath tmpPath : String)
    (reprojection : Option Reprojection) (bbox : B) (dimList : List DimInfo)
    (numThreads numDimensions chunkPoints baseDepth flatDepth diskDepth : Nat) :
    let buildSource := e.getSource buildPath
    let tmpSource := e.getSource tmpPath
    let tmpDir := e.mkdirp w tmpSource.path
    let buildDir := e.mkdirp tmpDir.1 buildSource.path
    let made := Builder.create e w buildPath tmpPath reprojection bbox dimList numThreads
      numDimensions chunkPoints baseDepth flatDepth diskDepth
    ((∃ what, made = Except.error what) ↔
        (tmpSource.isRemote = true ∨ tmpDir.2 = false ∨
          (buildSource.isRemote = false ∧ buildDir.2 = false) ∨ numDimensions ≠ 2)) ∧
      (tmpSource.isRemote = true ↔ made = Except.error "Tmp path must be local") ∧
      (made = Except.error "Couldn't create local build directory" ↔
        (tmpSource.isRemote = false ∧ tmpDir.2 = true ∧ buildSource.isRemote = false ∧
          buildDir.2 = false)) := by
  intro buildSource tmpSource tmpDir buildDir made
  simp only [made, tmpDir, buildDir, buildSource, tmpSource, Builder.create, Builder.prep]
  cases h1 : (e.getSource tmpPath).isRemote <;>
    cases h2 : (e.mkdirp w (e.getSource tmpPath).path).2 <;>
    cases h3 : (e.getSource buildPath).isRemote <;>
    cases h4 : (e.mkdirp (e.mkdirp w (e.getSource tmpPath).path).1
      (e.getSource buildPath).path).2 <;>
    by_cases h5 : numDimensions = 2 <;>
    simp [h1, h2, h3, h4, h5]

/-- C5: the loading constructor does not check the dimension count.  On a
build directory whose `meta` says `dimensions = 3` it returns a builder with
`dimensions = 3`, while the configuration constructor throws for
`numDimensions = 3`. -/
theorem load_keeps_three_dimensions :
    (∃ b w, Builder.load demoEnv demoWorldThree "/data/build" "/tmp" none 1 = Except.ok (b, w) ∧
        b.dimensions = 3) ∧
      Builder.create demoEnv demoWorld "/data/build" "/tmp" none 16 [] 1 3 4 2 2 2 =
        Except.error "TODO - Only 2 dimensions so far" :=
  ⟨⟨_, _, rfl, rfl⟩, rfl⟩

/-! ## Submitting a file -/

/-- C6: for a path without an inferable reader driver, `Builder::insert(path)`
records the omission, returns false, adds no task to the pool and allocates no
origin (the manifest only receives `addOmission`).  When the call returns
true, a driver was inferred, exactly one task is added, carrying the one
origin that the single `addOrigin` call allocated for the path.  The call
itself never changes `numPoints` or `numTossed`. -/
theorem insertPath_spec (e : Env B S M R W) (b : Builder B S M R) (path : String) :
    let out := Builder.insertPath e b path
    (e.inferReaderDriver path = "" →
        out = ({ b with manifest := e.addOmission b.manifest path }, [], false)) ∧
      (out.2.2 = true →
        e.inferReaderDriver path ≠ "" ∧
          (e.addOrigin b.manifest path).2 ≠ e.invalidOrigin ∧
          out.1 = { b with manifest := (e.addOrigin b.manifest path).1 } ∧
          out.2.1 = [{ driver := e.inferReaderDriver path
                       origin := (e.addOrigin b.manifest path).2
                       path := path }]) ∧
      (out.2.2 = false → out.2.1 = []) ∧
      out.1.numPoints = b.numPoints ∧ out.1.numTossed = b.numTossed := by
  intro out
  simp only [out, Builder.insertPath]
  by_cases hd : e.inferReaderDriver path = ""
  · simp [hd]
  · by_cases ho : (e.addOrigin b.manifest path).2 = e.invalidOrigin
    · simp [hd, ho]
    · simp [hd, ho]

/-- Two runs of C6: `notes.txt` has no driver and is recorded as an omission;
`a.las` is accepted with origin 0 and one task. -/
theorem insertPath_spec_witness :
    (demoEnv.inferReaderDriver "notes.txt" = "" ∧
        Builder.insertPath demoEnv demoBuilder "notes.txt" =
          ({ demoBuilder with manifest := ([], ["notes.txt"]) }, [], false)) ∧
      ((Builder.insertPath demoEnv demoBuilder "a.las").2.2 = true ∧
        (Builder.insertPath demoEnv demoBuilder "a.las").2.1 =
          [{ driver := "readers.las", origin := 0, path := "a.las" }]) :=
  ⟨⟨by decide, (insertPath_spec demoEnv demoBuilder "notes.txt").1 (by decide)⟩,
    ⟨by decide, ((insertPath_spec demoEnv demoBuilder "a.las").2.1 (by decide)).2.2.2⟩⟩

/-! ## Metadata -/

theorem saveProps_eq (e : Env B S M R W) (b : Builder B S M R) :
    Builder.saveProps e b =
      Json.obj
        [("bbox", e.bboxToJson b.bbox), ("chunkPoints", Json.uint b.chunkPoints),
         ("dimensions", Json.uint b.dimensions), ("manifest", e.manifestToJson b.manifest),
         ("numPoints", Json.uint b.numPoints), ("numTossed", Json.uint b.numTossed),
         ("schema", e.schemaToJson b.schema)] := by
  rfl

theorem saveMeta_eq (e : Env B S M R W) (b : Builder B S M R) :
    (Builder.saveMeta e b).2 =
      Json.obj
        [("bbox", e.bboxToJson b.bbox), ("chunkPoints", Json.uint b.chunkPoints),
         ("dimensions", Json.uint b.dimensions), ("manifest", e.manifestToJson b.manifest),
         ("numPoints", Json.uint b.numPoints), ("numTossed", Json.uint b.numTossed),
         ("registry", (e.registrySave b.registry Json.null).2),
         ("schema", e.schemaToJson b.schema)] := by
  rfl

theorem readProps_saveMeta (e : Env B S M R W) (b : Builder B S M R) :
    readProps e (Builder.saveMeta e b).2 =
      some
        { bbox := e.bboxFromJson (e.bboxToJson b.bbox)
          schema := e.schemaFromJson (e.schemaToJson b.schema)
          dimensions := b.dimensions
          chunkPoints := b.chunkPoints
          numPoints := b.numPoints
          numTossed := b.numTossed
          manifest := e.manifestFromJson (e.manifestToJson b.manifest) } := by
  rfl

theorem readProps_saveProps (e : Env B S M R W) (b : Builder B S M R) :
    readProps e (Builder.saveProps e b) =
      some
        { bbox := e.bboxFromJson (e.bboxToJson b.bbox)
          schema := e.schemaFromJson (e.schemaToJson b.schema)
          dimensions := b.dimensions
          chunkPoints := b.chunkPoints
          numPoints := b.numPoints
          numTossed := b.numTossed
          manifest := e.manifestFromJson (e.manifestToJson b.manifest) } := by
  rfl

/-- C7: metadata round trip.  If, for `BBox`, `Schema` and `Manifest`,
`fromJson` undoes `toJson` as far as the JSON goes, then for every builder
`b`: `loadProps(saveProps(b))` succeeds and restores `dimensions`,
`chunkPoints`, `numPoints` and `numTossed` to the same values and `bbox`,
`schema` and `manifest` to values with the same JSON, so `saveProps` gives the
same value again; the same holds for the full `meta` document that `save()`
writes; and the loading constructor, run on a build source that returns this
document, yields a builder with the same `saveProps`, and with the same whole
`meta` document when the registry reloads what it saved. -/
theorem props_round_trip (e : Env B S M R W)
    (hb : ∀ x, e.bboxToJson (e.bboxFromJson (e.bboxToJson x)) = e.bboxToJson x)
    (hs : ∀ x, e.schemaToJson (e.schemaFromJson (e.schemaToJson x)) = e.schemaToJson x)
    (hm : ∀ x, e.manifestToJson (e.manifestFromJson (e.manifestToJson x)) = e.manifestToJson x)
    (b b0 : Builder B S M R) :
    (∃ b1, Builder.loadProps e b0 (Builder.saveProps e b) = some b1 ∧
        b1.dimensions = b.dimensions ∧ b1.chunkPoints = b.chunkPoints ∧
        b1.numPoints = b.numPoints ∧ b1.numTossed = b.numTossed ∧
        e.bboxToJson b1.bbox = e.bboxToJson b.bbox ∧
        e.schemaToJson b1.schema = e.schemaToJson b.schema ∧
        e.manifestToJson b1.manifest = e.manifestToJson b.manifest ∧
        Builder.saveProps e b1 = Builder.saveProps e b) ∧
      (∃ b2, Builder.loadProps e b0 (Builder.saveMeta e b).2 = some b2 ∧
        Builder.saveProps e b2 = Builder.saveProps e b) ∧
      (∀ (w w1 : W) (buildPath tmpPath : String) (reprojection : Option Reprojection)
          (numThreads : Nat),
        Builder.prep e w (e.getSource buildPath) (e.getSource tmpPath) = Except.ok w1 →
        e.getAsString w1 (e.getSource buildPath) "meta" =
          some (Blob.text (Builder.saveMeta e b).2) →
        ∃ b3, Builder.load e w buildPath tmpPath reprojection numThreads = Except.ok (b3, w1) ∧
          Builder.saveProps e b3 = Builder.saveProps e b ∧
          ((∀ source schema dimensions chunkPoints reg,
              (e.registrySave (e.registryLoad source schema dimensions chunkPoints
                (e.registrySave reg Json.null).2) Json.null).2 =
                (e.registrySave reg Json.null).2) →
            (Builder.saveMeta e b3).2 = (Builder.saveMeta e b).2)) := by
  refine ⟨?_, ?_, ?_⟩
  · refine ⟨{ b0 with
        bbox := e.bboxFromJson (e.bboxToJson b.bbox)
        schema := e.schemaFromJson (e.schemaToJson b.schema)
        dimensions := b.dimensions
        chunkPoints := b.chunkPoints
        numPoints := b.numPoints
        numTossed := b.numTossed
        manifest := e.manifestFromJson (e.manifestToJson b.manifest) },
      rfl, rfl, rfl, rfl, rfl, hb _, hs _, hm _, ?_⟩
    simp only [saveProps_eq, hb, hs, hm]
  · refine ⟨{ b0 with
        bbox := e.bboxFromJson (e.bboxToJson b.bbox)
        schema := e.schemaFromJson (e.schemaToJson b.schema)
        dimensions := b.dimensions
        chunkPoints := b.chunkPoints
        numPoints := b.numPoints
        numTossed := b.numTossed
        manifest := e.manifestFromJson (e.manifestToJson b.manifest) }, rfl, ?_⟩
    simp only [saveProps_eq, hb, hs, hm]
  · intro w w1 buildPath tmpPath reprojection numThreads hprep hget
    refine ⟨{ reprojection := reprojection
              bbox := e.bboxFromJson (e.bboxToJson b.bbox)
              schema := e.schemaFromJson (e.schemaToJson b.schema)
              originId := e.findDim (e.schemaFromJson (e.schemaToJson b.schema)) "Origin"
              dimensions := b.dimensions
              chunkPoints := b.chunkPoints
              numPoints := b.numPoints
              numTossed := b.numTossed
              manifest := e.manifestFromJson (e.manifestToJson b.manifest)
              buildSource := e.getSource buildPath
              tmpSource := e.getSource tmpPath
              registry := e.registryLoad (e.getSource buildPath)
                (e.schemaFromJson (e.schemaToJson b.schema)) b.dimensions b.chunkPoints
                (e.registrySave b.registry Json.null).2 }, ?_, ?_, ?_⟩
    · simp only [Builder.load, hprep, hget, parseMeta, readProps_saveMeta]
      rfl
    · simp only [saveProps_eq, hb, hs, hm]
    · intro hreg
      simp only [saveMeta_eq, hb, hs, hm, hreg]

theorem jsonStrings_strs (l : List String) : jsonStrings (Json.arr (l.map Json.str)) = l := by
  simp only [jsonStrings]
  induction l with
  | nil => rfl
  | cons a l ih => simp only [List.map_cons, List.filterMap_cons, ih]

theorem demoManifest_round_trip (m : List String × List String) :
    demoEnv.manifestFromJson (demoEnv.manifestToJson m) = m := by
  show (jsonStrings (Json.arr (m.1.map Json.str)), jsonStrings (Json.arr (m.2.map Json.str))) = m
  rw [jsonStrings_strs, jsonStrings_strs]

/-- A run of C7: the filled demo builder is saved, and the loading constructor
on the resulting file system yields a builder that saves the same `meta`. -/
theorem props_round_trip_witness :
    ∃ b3 w1,
      Builder.load demoEnv (Builder.save demoEnv demoWorld demoFilled).2 "/data/build" "/tmp"
        none 1 = Except.ok (b3, w1) ∧
      (Builder.saveMeta demoEnv b3).2 = (Builder.saveMeta demoEnv demoFilled).2 := by
  have h := (props_round_trip demoEnv (fun _ => rfl) (fun _ => rfl)
    (fun m => congrArg demoEnv.manifestToJson (demoManifest_round_trip m))
    demoFilled demoBuilder).2.2 (Builder.save demoEnv demoWorld demoFilled).2 _
    "/data/build" "/tmp" none 1 rfl rfl
  obtain ⟨b3, hload, _, hmeta⟩ := h
  refine ⟨b3, _, hload, hmeta ?_⟩
  intro source schema dimensions chunkPoints reg
  show Json.uint (List.replicate reg.length ({ x := 0, y := 0 } : Point)).length =
    Json.uint reg.length
  rw [List.length_replicate]

/-- C8: the document that `save()` puts under the key `meta` has exactly the
members `bbox`, `chunkPoints`, `dimensions`, `manifest`, `numPoints`,
`numTossed`, `registry`, `schema` (the order in which jsoncpp keeps them).
The four numbers are the builder's current values, `registry` is present with
whatever the registry left in the null slot it was given, and the document
does not depend on the reprojection. -/
theorem save_meta_layout (e : Env B S M R W) (w : W) (b : Builder B S M R) :
    let jsonMeta := (Builder.saveMeta e b).2
    (Builder.save e w b).2 = e.put w b.buildSource "meta" (Blob.text jsonMeta) ∧
      jsonMeta.keys =
        ["bbox", "chunkPoints", "dimensions", "manifest", "numPoints", "numTossed",
          "registry", "schema"] ∧
      jsonMeta.get "bbox" = e.bboxToJson b.bbox ∧
      jsonMeta.get "schema" = e.schemaToJson b.schema ∧
      jsonMeta.get "dimensions" = Json.uint b.dimensions ∧
      jsonMeta.get "chunkPoints" = Json.uint b.chunkPoints ∧
      jsonMeta.get "numPoints" = Json.uint b.numPoints ∧
      jsonMeta.get "numTossed" = Json.uint b.numTossed ∧
      jsonMeta.get "manifest" = e.manifestToJson b.manifest ∧
      jsonMeta.get "registry" = (e.registrySave b.registry Json.null).2 ∧
      jsonMeta.isMember "registry" = true ∧
      (∀ reprojection,
        (Builder.saveMeta e { b with reprojection := reprojection }).2 = jsonMeta) := by
  intro jsonMeta
  exact ⟨rfl, rfl, rfl, rfl, rfl, rfl, rfl, rfl, rfl, rfl, rfl, fun _ => rfl⟩

/-! ## Finalize -/

theorem entwineMeta_eq (e : Env B S M R W) (b : Builder B S M R) (ids : List Nat)
    (baseEnd chunkPoints : Nat) :
    Builder.entwineMeta e b ids baseEnd chunkPoints =
      Json.obj
        [("bbox", e.bboxToJson b.bbox), ("chunkPoints", Json.uint chunkPoints),
         ("dimensions", Json.uint b.dimensions), ("firstChunk", Json.uint baseEnd),
         ("manifest", e.manifestToJson b.manifest), ("numIds", Json.uint ids.length),
         ("numPoints", Json.uint b.numPoints), ("numTossed", Json.uint b.numTossed),
         ("schema", e.schemaToJson b.schema)] := by
  rfl

/-- C9: `finalize(path, chunkPoints, base, compress)` throws exactly when the
output source is local and its directory cannot be created, and then writes
nothing.  Otherwise it puts under `entwine` the document `saveProps()` with
`numIds` set to the number of ids the registry reported, `firstChunk` set to
`baseEnd = calcOffset(base, dimensions)` and `chunkPoints` replaced by the
argument; `bbox`, `schema`, `dimensions`, `numPoints`, `numTossed` and
`manifest` are those of the build.  The `ids` blob is written after it. -/
theorem finalize_entwine (e : Env B S M R W) (w : W) (b : Builder B S M R) (path : String)
    (chunkPoints base : Nat) (compress : Bool) :
    let outputSource := e.getSource path
    let outputDir := if outputSource.isRemote then (w, true) else e.mkdirp w outputSource.path
    let baseEnd := e.calcOffset base b.dimensions
    let ids := (e.registryFinalize b.registry outputSource baseEnd chunkPoints).2
    let entwine :=
      (((Builder.saveProps e b).set "numIds" (Json.uint ids.length)).set "firstChunk"
        (Json.uint baseEnd)).set "chunkPoints" (Json.uint chunkPoints)
    let out := Builder.finalize e w b path chunkPoints base compress
    (out.2.2 = Outcome.threw ("Could not create " ++ outputSource.path) ↔
        outputDir.2 = false) ∧
      out.2.1 =
        (if outputDir.2 = false then outputDir.1
        else if ids.length < 2 ^ 32 then
          e.put (e.put outputDir.1 outputSource "entwine" (Blob.text entwine)) outputSource
            "ids" (Blob.text (idsJson ids))
        else e.put outputDir.1 outputSource "entwine" (Blob.text entwine)) ∧
      entwine =
        Json.obj
          [("bbox", e.bboxToJson b.bbox), ("chunkPoints", Json.uint chunkPoints),
           ("dimensions", Json.uint b.dimensions), ("firstChunk", Json.uint baseEnd),
           ("manifest", e.manifestToJson b.manifest), ("numIds", Json.uint ids.length),
           ("numPoints", Json.uint b.numPoints), ("numTossed", Json.uint b.numTossed),
           ("schema", e.schemaToJson b.schema)] := by
  intro outputSource outputDir baseEnd ids entwine out
  refine ⟨?_, ?_, rfl⟩
  · simp only [out, outputDir, outputSource, ids, baseEnd, Builder.finalize]
    cases h1 : (e.getSource path).isRemote <;>
      cases h2 : (e.mkdirp w (e.getSource path).path).2 <;>
      simp [h1, h2] <;> split <;> simp
  · simp only [out, outputDir, outputSource, ids, baseEnd, entwine, Builder.finalize]
    cases h1 : (e.getSource path).isRemote <;>
      cases h2 : (e.mkdirp w (e.getSource path).path).2 <;>
      simp [h1, h2] <;> split <;> rfl

theorem idsJson_fold (ids : List Nat) :
    ∀ items : List Json,
      ids.foldl (fun jsonIds id => jsonIds.append (Json.uint id)) (Json.arr items) =
        Json.arr (items ++ ids.map Json.uint) := by
  induction ids with
  | nil => intro items; simp
  | cons id rest ih =>
    intro items
    have hstep : (Json.arr items).append (Json.uint id) = Json.arr (items ++ [Json.uint id]) :=
      rfl
    rw [List.foldl_cons, hstep, ih, List.map_cons, List.append_assoc, List.singleton_append]

theorem idsJson_cons (id : Nat) (rest : List Nat) :
    idsJson (id :: rest) = Json.arr ((id :: rest).map Json.uint) := by
  have hstep : Json.null.append (Json.uint id) = Json.arr [Json.uint id] := rfl
  rw [idsJson, List.foldl_cons, hstep, idsJson_fold, List.map_cons, List.singleton_append]

/-- C10, as stated, fails on the code: for the empty id list the `ids` blob is
the JSON value null, not an array; for the ids 5, 3 reported in this order the
blob lists 5 before 3; and for `2 ^ 32` ids the 32-bit loop counter never
reaches the size, so the call does not return and no `ids` blob is written. -/
theorem finalize_ids_counterexample :
    (demoEnv.getAsString (Builder.finalize demoEnv demoWorld demoBuilder "/out" 4 1 false).2.1
          { isRemote := false, path := "/out" } "ids" = some (Blob.text Json.null) ∧
        Json.null.isArray = false) ∧
      demoEnv.getAsString (Builder.finalize demoEnv demoWorld demoUnordered "/out" 4 1 false).2.1
          { isRemote := false, path := "/out" } "ids" =
        some (Blob.text (Json.arr [Json.uint 5, Json.uint 3])) ∧
      ((Builder.finalize demoEnv demoWorld demoHuge "/out" 4 1 false).2.2 = Outcome.hangs ∧
        demoEnv.getAsString (Builder.finalize demoEnv demoWorld demoHuge "/out" 4 1 false).2.1
          { isRemote := false, path := "/out" } "ids" = none) := by
  refine ⟨⟨rfl, rfl⟩, rfl, ?_⟩
  have hlen : ¬ (demoEnv.registryFinalize demoHuge.registry (demoEnv.getSource "/out")
      (demoEnv.calcOffset 1 demoHuge.dimensions) 4).2.length < 2 ^ 32 := by
    show ¬ ((List.replicate (2 ^ 32) ({ x := 0, y := 0 } : Point)).map
      (fun p => p.x.toNat)).length < 2 ^ 32
    rw [List.length_map, List.length_replicate]
    exact Nat.lt_irrefl _
  have hdir : (if !(demoEnv.getSource "/out").isRemote then
      demoEnv.mkdirp demoWorld (demoEnv.getSource "/out").path else (demoWorld, true)) =
      ({ dirs := ["/out"], blobs := [] }, true) := rfl
  simp only [Builder.finalize, hdir, hlen, if_false, Bool.not_true, Bool.false_eq_true]
  exact ⟨trivial, rfl⟩

/-- C10, amended: when `finalize` gets past the creation of the output
directory and the registry reports a non-empty list of fewer than `2 ^ 32`
chunk ids, the call returns and the `ids` blob, written after `entwine`, is the
JSON array of exactly these ids in the order in which the registry reported
them; its length is the `numIds` value of `entwine`.  For every list, the
empty one included, `numIds` is the number of ids reported. -/
theorem finalize_ids (e : Env B S M R W) (w : W) (b : Builder B S M R) (path : String)
    (chunkPoints base : Nat) (compress : Bool) :
    let outputSource := e.getSource path
    let outputDir := if outputSource.isRemote then (w, true) else e.mkdirp w outputSource.path
    let baseEnd := e.calcOffset base b.dimensions
    let ids := (e.registryFinalize b.registry outputSource baseEnd chunkPoints).2
    let entwine := Builder.entwineMeta e b ids baseEnd chunkPoints
    let out := Builder.finalize e w b path chunkPoints base compress
    (outputDir.2 = true → ids ≠ [] → ids.length < 2 ^ 32 →
        out.2.2 = Outcome.returned ∧
          out.2.1 =
            e.put (e.put outputDir.1 outputSource "entwine" (Blob.text entwine)) outputSource
              "ids" (Blob.text (Json.arr (ids.map Json.uint))) ∧
          entwine.get "numIds" = Json.uint (ids.map Json.uint).length) ∧
      entwine.get "numIds" = Json.uint ids.length := by
  intro outputSource outputDir baseEnd ids entwine out
  refine ⟨?_, rfl⟩
  intro hdir hne hlen
  have hids : idsJson ids = Json.arr (ids.map Json.uint) := by
    cases hi : ids with
    | nil => exact absurd hi hne
    | cons id rest => exact idsJson_cons id rest
  have hdir2 : (if !(e.getSource path).isRemote then e.mkdirp w (e.getSource path).path
      else (w, true)) = outputDir := by
    simp only [outputDir, outputSource]
    cases (e.getSource path).isRemote <;> rfl
  refine ⟨?_, ?_, ?_⟩
  · simp only [out, Builder.finalize, hdir2, hdir]
    simp only [Bool.not_true, Bool.false_eq_true, if_false]
    rw [if_pos hlen]
  · simp only [out, Builder.finalize, hdir2, hdir]
    simp only [Bool.not_true, Bool.false_eq_true, if_false]
    rw [if_pos hlen, hids]
    rfl
  · rw [List.length_map]
    rfl

/-- A run of the amended C10: the registry reports the ids 5 and 3, and the
`ids` blob is the array of 5 and 3. -/
theorem finalize_ids_witness :
    (Builder.finalize demoEnv demoWorld demoUnordered "/out" 4 1 false).2.2 = Outcome.returned ∧
      (Builder.finalize demoEnv demoWorld demoUnordered "/out" 4 1 false).2.1 =
        demoEnv.put
          (demoEnv.put { dirs := ["/out"], blobs := [] } { isRemote := false, path := "/out" }
            "entwine"
            (Blob.text (Builder.entwineMeta demoEnv demoUnordered [5, 3] 1 4)))
          { isRemote := false, path := "/out" } "ids"
          (Blob.text (Json.arr [Json.uint 5, Json.uint 3])) ∧
      (Builder.entwineMeta demoEnv demoUnordered [5, 3] 1 4).get "numIds" = Json.uint 2 :=
  (finalize_ids demoEnv demoWorld demoUnordered "/out" 4 1 false).1 rfl (by decide) (by decide)

/-! ## The scratch table -/

theorem readCb_flush (e : Env B S M R W) (origin : Nat) (b : Builder B S M R)
    (scratch : Scratch) (index : Nat)
    (h : scratch.table.length =
        (index % sizeMod + sizeMod - scratch.begin % sizeMod) % sizeMod ∧
      scratch.dataSize (e.pointSize b.schema) > chunkBytes) :
    Builder.readCb e origin (b, scratch) index =
      ((Builder.insertView e origin b (linkView e b.reprojection scratch.table)).1,
        { table := [], begin := (scratch.begin + scratch.table.length) % sizeMod }) := by
  simp only [Builder.readCb]
  rw [if_pos h, ← h.1]

theorem readCb_keep (e : Env B S M R W) (origin : Nat) (b : Builder B S M R)
    (scratch : Scratch) (index : Nat)
    (h : ¬ (scratch.table.length =
        (index % sizeMod + sizeMod - scratch.begin % sizeMod) % sizeMod ∧
      scratch.dataSize (e.pointSize b.schema) > chunkBytes)) :
    Builder.readCb e origin (b, scratch) index = (b, scratch) := by
  simp only [Builder.readCb]
  rw [if_neg h]

theorem readCb_schema (e : Env B S M R W) (origin : Nat) (b : Builder B S M R)
    (scratch : Scratch) (index : Nat) :
    (Builder.readCb e origin (b, scratch) index).1.schema = b.schema := by
  by_cases h : scratch.table.length =
        (index % sizeMod + sizeMod - scratch.begin % sizeMod) % sizeMod ∧
      scratch.dataSize (e.pointSize b.schema) > chunkBytes
  · rw [readCb_flush e origin b scratch index h, insertView_schema]
  · rw [readCb_keep e origin b scratch index h]

/-- After a callback whose index matches the table, the table holds at most
`chunkBytes` bytes. -/
theorem readCb_small (e : Env B S M R W) (origin : Nat) (b : Builder B S M R)
    (scratch : Scratch) (index : Nat)
    (hspan : scratch.table.length =
      (index % sizeMod + sizeMod - scratch.begin % sizeMod) % sizeMod) :
    (Builder.readCb e origin (b, scratch) index).2.dataSize (e.pointSize b.schema) ≤
      chunkBytes := by
  by_cases h : scratch.dataSize (e.pointSize b.schema) > chunkBytes
  · rw [readCb_flush e origin b scratch index ⟨hspan, h⟩]
    simp [Scratch.dataSize]
  · rw [readCb_keep e origin b scratch index (fun hh => h hh.2)]
    exact Nat.le_of_not_lt h

theorem sizeMod_eq : sizeMod = 18446744073709551616 := by
  norm_num [sizeMod]

theorem storedRecords_point (r : Record) (events : List ReaderEvent) :
    storedRecords (ReaderEvent.point r :: events) = r :: storedRecords events := rfl

theorem storedRecords_callback (index : Nat) (events : List ReaderEvent) :
    storedRecords (ReaderEvent.callback index :: events) = storedRecords events := rfl

/-- While the reader is in step and fewer than `2 ^ 64` records arrive,
`begin` plus the size of the table is the number of records stored so far. -/
theorem inStep_fold (e : Env B S M R W) (origin : Nat) (pre : List ReaderEvent) :
    ∀ (k : Nat) (b : Builder B S M R) (scratch : Scratch) (rest : List ReaderEvent),
      inStep k (pre ++ rest) = true →
      scratch.begin + scratch.table.length = k →
      k + (storedRecords (pre ++ rest)).length < sizeMod →
      (pre.foldl (Builder.deliver e origin) (b, scratch)).2.begin +
          (pre.foldl (Builder.deliver e origin) (b, scratch)).2.table.length =
        k + (storedRecords pre).length ∧
      inStep (k + (storedRecords pre).length) rest = true ∧
      (pre.foldl (Builder.deliver e origin) (b, scratch)).1.schema = b.schema := by
  induction pre with
  | nil =>
    intro k b scratch rest hstep hinv _
    exact ⟨hinv, hstep, rfl⟩
  | cons ev pre ih =>
    intro k b scratch rest hstep hinv hlt
    rw [List.foldl_cons]
    cases ev with
    | point r =>
      have hd : Builder.deliver e origin (b, scratch) (ReaderEvent.point r) =
          (b, { scratch with table := scratch.table ++ [r] }) := rfl
      rw [hd]
      rw [List.cons_append, storedRecords_point, List.length_cons] at hlt
      have h := ih (k + 1) b { scratch with table := scratch.table ++ [r] } rest hstep
        (by simp only [List.length_append, List.length_singleton]; omega) (by omega)
      rw [storedRecords_point, List.length_cons]
      refine ⟨by omega, ?_, h.2.2⟩
      have h2 := h.2.1
      rwa [show k + 1 + (storedRecords pre).length = k + ((storedRecords pre).length + 1) by
        omega] at h2
    | callback index =>
      have hd : Builder.deliver e origin (b, scratch) (ReaderEvent.callback index) =
          Builder.readCb e origin (b, scratch) index := rfl
      rw [hd]
      rw [List.cons_append, storedRecords_callback] at hlt
      have hstep2 : index = k ∧ inStep k (pre ++ rest) = true := by
        have hs : (decide (index = k) && inStep k (pre ++ rest)) = true := hstep
        simpa using hs
      rw [storedRecords_callback]
      have hschema := readCb_schema e origin b scratch index
      have hinv2 : (Builder.readCb e origin (b, scratch) index).2.begin +
          (Builder.readCb e origin (b, scratch) index).2.table.length = k := by
        by_cases hf : scratch.table.length =
              (index % sizeMod + sizeMod - scratch.begin % sizeMod) % sizeMod ∧
            scratch.dataSize (e.pointSize b.schema) > chunkBytes
        · rw [readCb_flush e origin b scratch index hf]
          simp only [List.length_nil, Nat.add_zero]
          rw [hinv]
          exact Nat.mod_eq_of_lt (by omega)
        · rw [readCb_keep e origin b scratch index hf]
          exact hinv
      have h := ih k (Builder.readCb e origin (b, scratch) index).1
        (Builder.readCb e origin (b, scratch) index).2 rest hstep2.2 hinv2 hlt
      exact ⟨h.1, h.2.1, h.2.2.trans hschema⟩

/-- C11, as stated, fails on the code: in the task `demoTask` on records of
40000 bytes the table holds 80000 bytes, more than `chunkBytes`, when the
callback is called with index 2, and this is the very call that flushes it;
called with index 3 instead, the callback leaves the over-full table as it
is. -/
theorem scratch_bound_counterexample :
    (((demoEnv.execute demoWorld none "readers.las" "a.las").take 4).foldl
          (Builder.deliver demoEnv 0) (demoBigBuilder, { table := [], begin := 0 })).2 =
        demoScratch ∧
      (demoEnv.execute demoWorld none "readers.las" "a.las")[4]? =
        some (ReaderEvent.callback 2) ∧
      demoScratch.dataSize (demoEnv.pointSize demoBigBuilder.schema) = 80000 ∧
      ¬ (demoScratch.dataSize (demoEnv.pointSize demoBigBuilder.schema) ≤ chunkBytes) ∧
      (Builder.readCb demoEnv 0 (demoBigBuilder, demoScratch) 2).2 = { table := [], begin := 2 } ∧
      (Builder.readCb demoEnv 0 (demoBigBuilder, demoScratch) 3).2 = demoScratch := by
  decide

/-- C11, amended: the callback flushes the scratch table exactly when the
table holds `index - begin` points and more than `chunkBytes` bytes.  A flush
inserts the whole table, leaves it empty and advances `begin` by the number of
points flushed; any other call changes nothing.  So the data size is above
`chunkBytes` at every flush, and at most `chunkBytes` after every call whose
index matches the table.  During a task whose reader hands to every callback
the number of points stored so far (fewer than `2 ^ 64` points), the table
holds at most `chunkBytes` bytes after every callback. -/
theorem scratch_bound (e : Env B S M R W) (origin : Nat) (b : Builder B S M R) :
    (∀ (scratch : Scratch) (index : Nat),
        let indexSpan := (index % sizeMod + sizeMod - scratch.begin % sizeMod) % sizeMod
        let size := scratch.dataSize (e.pointSize b.schema)
        let out := Builder.readCb e origin (b, scratch) index
        ((scratch.table.length = indexSpan ∧ chunkBytes < size) →
            out.1 = (Builder.insertView e origin b
              (linkView e b.reprojection scratch.table)).1 ∧
            out.2.table = [] ∧
            out.2.begin = (scratch.begin + scratch.table.length) % sizeMod) ∧
          (¬ (scratch.table.length = indexSpan ∧ chunkBytes < size) → out = (b, scratch)) ∧
          (scratch.table.length = indexSpan →
            out.2.dataSize (e.pointSize b.schema) ≤ chunkBytes)) ∧
      (∀ (pre post : List ReaderEvent) (index : Nat),
        inStep 0 (pre ++ ReaderEvent.callback index :: post) = true →
        (storedRecords (pre ++ ReaderEvent.callback index :: post)).length < sizeMod →
        ((pre ++ [ReaderEvent.callback index]).foldl (Builder.deliver e origin)
            (b, { table := [], begin := 0 })).2.dataSize (e.pointSize b.schema) ≤
          chunkBytes) := by
  constructor
  · intro scratch index indexSpan size out
    refine ⟨?_, ?_, ?_⟩
    · intro h
      simp only [out]
      rw [readCb_flush e origin b scratch index h]
      exact ⟨rfl, rfl, rfl⟩
    · intro h
      exact readCb_keep e origin b scratch index h
    · intro h
      exact readCb_small e origin b scratch index h
  · intro pre post index hstep hlt
    have h := inStep_fold e origin pre 0 b { table := [], begin := 0 }
      (ReaderEvent.callback index :: post) hstep rfl (by omega)
    obtain ⟨hinv, hnext, hschema⟩ := h
    have hidx : index = 0 + (storedRecords pre).length := by
      have hs : (decide (index = 0 + (storedRecords pre).length) &&
          inStep (0 + (storedRecords pre).length) post) = true := hnext
      simp only [Bool.and_eq_true, decide_eq_true_eq] at hs
      exact hs.1
    have hle : (storedRecords pre).length < sizeMod := by
      have hsub : (storedRecords pre).length ≤
          (storedRecords (pre ++ ReaderEvent.callback index :: post)).length := by
        simp only [storedRecords, List.filterMap_append, List.length_append]
        omega
      omega
    rw [List.foldl_append, List.foldl_cons, List.foldl_nil]
    have hd : Builder.deliver e origin
        (pre.foldl (Builder.deliver e origin) (b, { table := [], begin := 0 }))
        (ReaderEvent.callback index) =
        Builder.readCb e origin
          ((pre.foldl (Builder.deliver e origin) (b, { table := [], begin := 0 })).1,
            (pre.foldl (Builder.deliver e origin) (b, { table := [], begin := 0 })).2)
          index := rfl
    rw [hd, ← hschema]
    apply readCb_small
    rw [sizeMod_eq] at hle ⊢
    omega

/-- A run of the amended C11 on the task `demoTask` with records of 40000
bytes: the callback with index 2 finds two records, flushes them, and leaves
an empty table. -/
theorem scratch_bound_witness :
    ((Builder.readCb demoEnv 0 (demoBigBuilder, demoScratch) 2).2.table = [] ∧
        (Builder.readCb demoEnv 0 (demoBigBuilder, demoScratch) 2).2.begin = 2) ∧
      (((demoEnv.execute demoWorld none "readers.las" "a.las").take 4 ++
            [ReaderEvent.callback 2]).foldl (Builder.deliver demoEnv 0)
          (demoBigBuilder, { table := [], begin := 0 })).2.dataSize 40000 ≤ chunkBytes :=
  ⟨(((scratch_bound demoEnv 0 demoBigBuilder).1 demoScratch 2).1 (by decide)).2,
    (scratch_bound demoEnv 0 demoBigBuilder).2
      ((demoEnv.execute demoWorld none "readers.las" "a.las").take 4)
      ((demoEnv.execute demoWorld none "readers.las" "a.las").drop 5) 2
      (by decide) (by decide)⟩

/-! ## Staging and cleanup -/

theorem findLastOf_none (set : List Char) (s : List Char)
    (h : findLastOf set s = none) : ∀ c ∈ s, set.contains c = false := by
  induction s with
  | nil => intro c hc; cases hc
  | cons a s ih =>
    simp only [findLastOf] at h
    cases hrec : findLastOf set s with
    | some pos => rw [hrec] at h; cases h
    | none =>
      rw [hrec] at h
      have ha : set.contains a = false := by
        cases hset : set.contains a with
        | true =>
          rw [hset] at h
          cases h
        | false => rfl
      intro c hc
      rcases List.mem_cons.mp hc with rfl | hc
      · exact ha
      · exact ih hrec c hc

theorem findLastOf_some (set : List Char) (s : List Char) :
    ∀ pos, findLastOf set s = some pos →
      ∃ pre sep, set.contains sep = true ∧ s = pre ++ sep :: s.drop (pos + 1) ∧
        ∀ c ∈ s.drop (pos + 1), set.contains c = false := by
  induction s with
  | nil => intro pos h; cases h
  | cons a s ih =>
    intro pos h
    simp only [findLastOf] at h
    cases hrec : findLastOf set s with
    | some p =>
      rw [hrec] at h
      cases h
      obtain ⟨pre, sep, hsep, hs, hrest⟩ := ih p hrec
      refine ⟨a :: pre, sep, hsep, ?_, ?_⟩
      · simp only [List.drop_succ_cons, List.cons_append]
        exact congrArg (a :: ·) hs
      · simpa only [List.drop_succ_cons] using hrest
    | none =>
      rw [hrec] at h
      cases hset : set.contains a with
      | false =>
        rw [hset] at h
        cases h
      | true =>
        rw [hset] at h
        have hpos : 0 = pos := Option.some.inj h
        subst hpos
        refine ⟨[], a, hset, ?_, ?_⟩
        · simp
        · simpa using findLastOf_none set s hrec

/-- The method `Builder::name` returns the part of the build path after its
last `/` or `\`, and the whole path if it has neither. -/
theorem name_spec (b : Builder B S M R) :
    (∀ c ∈ b.name.data, ¬ (c = '/' ∨ c = '\\')) ∧
      (b.name = b.buildSource.path ∨
        ∃ pre sep, (sep = '/' ∨ sep = '\\') ∧
          b.buildSource.path.data = pre ++ sep :: b.name.data) := by
  have hmem : ∀ c : Char, ['/', '\\'].contains c = true ↔ (c = '/' ∨ c = '\\') := by
    intro c
    rw [List.contains, List.elem_eq_mem]
    simp
  simp only [Builder.name]
  cases hfind : findLastOf ['/', '\\'] b.buildSource.path.data with
  | none =>
    refine ⟨?_, Or.inl rfl⟩
    intro c hc hsep
    have := findLastOf_none _ _ hfind c hc
    rw [(hmem c).mpr hsep] at this
    cases this
  | some pos =>
    obtain ⟨pre, sep, hsep, hs, hrest⟩ := findLastOf_some _ _ pos hfind
    refine ⟨?_, Or.inr ⟨pre, sep, (hmem sep).mp hsep, hs⟩⟩
    intro c hc hbad
    have := hrest c hc
    rw [(hmem c).mpr hbad] at this
    cases this

/-- C12: staging and cleanup of a file task.  `name()` is the part of the
build path after its last `/` or `\` (the whole path if it has neither).  A
remote source is copied under the tmp source at the key
`name() + "-" + std::to_string(origin)`, the reader reads the resolved local
path of that key, and after the ingest exactly that staged file is removed;
the task throws if and only if the source is remote and this removal fails.
For a local source nothing is put, the reader reads the source's own path, no
file is removed (the file system is left as it was) and the task returns. -/
theorem task_staging (e : Env B S M R W) (w : W) (b : Builder B S M R) (t : Task) :
    let source := e.getSource t.path
    let subpath := b.name ++ "-" ++ toString t.origin
    let staged := e.resolve b.tmpSource subpath
    let w1 := e.put w b.tmpSource subpath (Blob.raw (e.getRoot w source))
    let out := Builder.runTask e w b t
    ((∀ c ∈ b.name.data, ¬ (c = '/' ∨ c = '\\')) ∧
        (b.name = b.buildSource.path ∨
          ∃ pre sep, (sep = '/' ∨ sep = '\\') ∧
            b.buildSource.path.data = pre ++ sep :: b.name.data)) ∧
      (source.isRemote = true →
        Builder.stage e w b t = (staged, w1) ∧
          (t.driver.length ≠ 0 →
            Builder.delivered e w b t = e.execute w1 b.reprojection t.driver staged) ∧
          out.2.1 = (e.removeFile w1 staged).1 ∧
          out.2.2 =
            (if (e.removeFile w1 staged).2 then Outcome.returned
            else Outcome.threw "Couldn't delete tmp file")) ∧
      (source.isRemote = false →
        Builder.stage e w b t = (source.path, w) ∧
          (t.driver.length ≠ 0 →
            Builder.delivered e w b t = e.execute w b.reprojection t.driver source.path) ∧
          out.2.1 = w ∧ out.2.2 = Outcome.returned) ∧
      ((∃ what, out.2.2 = Outcome.threw what) ↔
        (source.isRemote = true ∧ (e.removeFile w1 staged).2 = false)) := by
  intro source subpath staged w1 out
  refine ⟨name_spec b, ?_, ?_, ?_⟩
  · intro hremote
    have hstage : Builder.stage e w b t = (staged, w1) := by
      simp only [Builder.stage, staged, w1, subpath, source] at hremote ⊢
      rw [if_pos hremote]
    refine ⟨hstage, ?_, ?_, ?_⟩
    · intro hdriver
      simp only [Builder.delivered, hstage, createReader, if_pos hdriver]
    · simp only [out, Builder.runTask, hstage]
      simp only [source] at hremote
      rw [if_pos hremote]
      split <;> rfl
    · simp only [out, Builder.runTask, hstage]
      simp only [source] at hremote
      rw [if_pos hremote]
      split <;> rfl
  · intro hlocal
    have hstage : Builder.stage e w b t = (source.path, w) := by
      simp only [Builder.stage, source] at hlocal ⊢
      rw [if_neg (by simp [hlocal])]
    refine ⟨hstage, ?_, ?_, ?_⟩
    · intro hdriver
      simp only [Builder.delivered, hstage, createReader, if_pos hdriver]
    · simp only [out, Builder.runTask, hstage]
      simp only [source] at hlocal
      rw [if_neg (by simp [hlocal])]
    · simp only [out, Builder.runTask, hstage]
      simp only [source] at hlocal
      rw [if_neg (by simp [hlocal])]
  · simp only [out, source, staged, w1, subpath, Builder.runTask, Builder.stage]
    cases hremote : (e.getSource t.path).isRemote with
    | false => simp
    | true =>
      simp only [if_true]
      cases hrm : (e.removeFile (e.put w b.tmpSource (b.name ++ "-" ++ toString t.origin)
          (Blob.raw (e.getRoot w (e.getSource t.path))))
          (e.resolve b.tmpSource (b.name ++ "-" ++ toString t.origin))).2 <;> simp

/-- Three runs of C12: the remote file `s3://bucket/a.las` with origin 12 is
staged at `/tmp/build-12` and the task returns; where no file can be removed
the same task throws; the local file `a.las` is read in place and the task
returns with the file system untouched. -/
theorem task_staging_witness :
    ((Builder.stage demoEnv demoWorld demoBuilder demoRemoteTask).1 = "/tmp/build-12" ∧
        (Builder.runTask demoEnv demoWorld demoBuilder demoRemoteTask).2.2 =
          Outcome.returned) ∧
      (∃ what, (Builder.runTask demoLockedEnv demoWorld demoBuilder demoRemoteTask).2.2 =
        Outcome.threw what) ∧
      ((Builder.runTask demoLockedEnv demoWorld demoBuilder demoTask).2.1 = demoWorld ∧
        (Builder.runTask demoLockedEnv demoWorld demoBuilder demoTask).2.2 =
          Outcome.returned) :=
  ⟨⟨congrArg Prod.fst
      ((task_staging demoEnv demoWorld demoBuilder demoRemoteTask).2.1 (by decide)).1,
      ((task_staging demoEnv demoWorld demoBuilder demoRemoteTask).2.1 (by decide)).2.2.2⟩,
    (task_staging demoLockedEnv demoWorld demoBuilder demoRemoteTask).2.2.2.mpr
      ⟨by decide, by decide⟩,
    ((task_staging demoLockedEnv demoWorld demoBuilder demoTask).2.2.1 (by decide)).2.2⟩

end Entwine
